import Mathlib

/-!
Verification of the attack-surface graph engine of the
`netlas-ai-attack-surface-discovery` repository.

The development is a shallow embedding of the Python sources under
`src/discovery/`:

* `node_type.py` — the `NodeType` enumeration;
* `search_direction.py` — the `SearchDirection` value type;
* `node.py` — `Node`, a set of item strings with a cached, hash-invalidated
  list of search directions;
* `surface.py` — `AttackSurface`, a list of nodes with graph-wide per-type
  deduplication;
* `client.py` — the retry loop of `ApiClient._execute_api_call`.

Modelling conventions:

* A Python `set[str]` is modelled as `Finset String`.
* `hash(frozenset(self))`, used by `Node` to detect membership changes, is
  modelled by storing the snapshotted membership itself and comparing sets
  for equality (an injective stand-in for the hash comparison).
* In-place mutation of a `Node` is modelled by returning the node's
  post-state alongside any other result.
* The remote API (`ApiClient.getSearchDirections`) is modelled as an
  abstract function `Provider` from the request data (node type and items)
  to the response (directions and count id); the graph's
  `_update_search_directions` callback closes over it.
* Python exceptions that the modelled code can raise are the constructors
  of `PyErr`; fallible reads return `Except PyErr`.
* Python's iteration order over a `set` is unspecified (hash- and
  seed-dependent), so code that linearises a set (`list(items)` in
  `unique_items_to_dict`) is parameterised by an arbitrary enumeration
  function required only to be a valid enumeration of the set
  (`IsSetEnum`).
-/

/-- The `NodeType` enumeration from `src/discovery/node_type.py`. -/
inductive NodeType
  | address
  | as_name
  | asn
  | dns_txt
  | domain
  | email
  | favicon
  | http_tracker
  | ip
  | ip_range
  | jarm
  | network_name
  | organization
  | person
  | phone
  | text
deriving DecidableEq

/-- The string `value` of each `NodeType` member (`node_type.py`). -/
def NodeType.value : NodeType → String
  | .address => "address"
  | .as_name => "as_name"
  | .asn => "asn"
  | .dns_txt => "dns_txt"
  | .domain => "domain"
  | .email => "email"
  | .favicon => "favicon"
  | .http_tracker => "http_tracker"
  | .ip => "ip"
  | .ip_range => "ip-range"
  | .jarm => "jarm"
  | .network_name => "network_name"
  | .organization => "organization"
  | .person => "person"
  | .phone => "phone"
  | .text => "text"

/-- `SearchDirection` from `src/discovery/search_direction.py`. -/
structure SearchDirection where
  id : Int
  search_field : String
  count : Nat
  preview : List String
deriving DecidableEq

/-- Python exceptions the modelled code can raise.  `valueError` carries the
message of the `raise ValueError(...)` site; `stopIteration` is raised by
`next()` on an exhausted generator; `attributeError` by reading an instance
attribute that was never assigned. -/
inductive PyErr
  | attributeError
  | valueError (msg : String)
  | stopIteration
deriving DecidableEq

/-- `Node` from `src/discovery/node.py`.  The Python class subclasses
`set[str]`; its elements are `items`.  The attributes `_search_directions`,
`_count_id` and `_items_hash` are assigned together (only by
`setSearchDirections`), so they are modelled as one optional `cache` triple
`(directions, count_id, membership snapshot)`; `cache = none` models the
state in which the attributes were never assigned (reading them raises
`AttributeError`).  `updaterSet` models `_is_search_directions_updater_set`;
the updater callback itself is always the owning surface's
`_update_search_directions`, which is modelled explicitly where needed. -/
structure Node where
  label : String
  type : NodeType
  items : Finset String
  cache : Option (List SearchDirection × String × Finset String)
  updaterSet : Bool
deriving DecidableEq

/-- `Node.__init__`: a fresh node has no cache and no updater. -/
def Node.mkNode (label : String) (type : NodeType) (items : Finset String) : Node :=
  ⟨label, type, items, none, false⟩

/-- The directions stored in the cache, if any. -/
def Node.cachedDirections (n : Node) : Option (List SearchDirection) :=
  n.cache.map (fun c => c.1)

/-- The membership snapshot stored in the cache, if any (models
`_items_hash`). -/
def Node.cacheSnapshot (n : Node) : Option (Finset String) :=
  n.cache.map (fun c => c.2.2)

/-- `Node.setSearchDirections`: store directions and count id and snapshot
the current membership. -/
def Node.setSearchDirections (n : Node) (dirs : List SearchDirection) (cid : String) : Node :=
  { n with cache := some (dirs, cid, n.items) }

/-- `Node.setSearchDirectionUpdater`: record that the updater callback is
registered. -/
def Node.setSearchDirectionUpdater (n : Node) : Node :=
  { n with updaterSet := true }

/-- `Node.isSearchDirectionsRelevant`: directions are relevant when they are
set, non-empty (`not self._search_directions` is true for an empty list) and
the membership snapshot matches the current membership.  When the cache
attributes were never assigned, the attribute access itself raises
`AttributeError`. -/
def Node.isSearchDirectionsRelevant (n : Node) : Except PyErr Bool :=
  match n.cache with
  | none => .error .attributeError
  | some (dirs, _, snap) =>
      if dirs = [] ∨ snap ≠ n.items then .ok false else .ok true

/-- The remote API of `ApiClient.getSearchDirections`, abstracted as a
function of the request data: node type and node items to the parsed
response (directions list and the `X-Count-ID` header value). -/
def Provider : Type :=
  NodeType → Finset String → List SearchDirection × String

/-- `AttackSurface._update_search_directions`: ask the provider for the
node's directions and store them on the node. -/
def updateSearchDirections (pv : Provider) (n : Node) : Node :=
  Node.setSearchDirections n (pv n.type n.items).1 (pv n.type n.items).2

/-- The `Node.searchDirections` property.  Returns the directions together
with the node's post-state and the number of updater invocations performed
(the updater, when registered, is the surface's
`_update_search_directions`). -/
def Node.searchDirectionsRead (pv : Provider) (n : Node) :
    Except PyErr (List SearchDirection × Node × Nat) :=
  match n.isSearchDirectionsRelevant with
  | .error e => .error e
  | .ok true =>
      match n.cache with
      | some (dirs, _, _) => .ok (dirs, n, 0)
      | none => .error .attributeError
  | .ok false =>
      if n.updaterSet then
        match (updateSearchDirections pv n).cache with
        | some (dirs, _, _) => .ok (dirs, updateSearchDirections pv n, 1)
        | none => .error .attributeError
      else
        .error (.valueError "Search directions are not set or are not relevant.")

/-- The `Node.count_id` property; identical control flow to
`searchDirections`, returning `_count_id`. -/
def Node.countIdRead (pv : Provider) (n : Node) :
    Except PyErr (String × Node × Nat) :=
  match n.isSearchDirectionsRelevant with
  | .error e => .error e
  | .ok true =>
      match n.cache with
      | some (_, cid, _) => .ok (cid, n, 0)
      | none => .error .attributeError
  | .ok false =>
      if n.updaterSet then
        match (updateSearchDirections pv n).cache with
        | some (_, cid, _) => .ok (cid, updateSearchDirections pv n, 1)
        | none => .error .attributeError
      else
        .error (.valueError "Search directions are not set or are not relevant.")

/-- `AttackSurface._unique_items`, specialised to one type: the union of the
items of all nodes of type `t` currently in the surface (the Python method
builds the whole `dict`; looking one type up in it gives this set, and the
empty set when the type is absent). -/
def uniqueItemsOf : List Node → NodeType → Finset String
  | [], _ => ∅
  | n :: rest, t => (if n.type = t then n.items else ∅) ∪ uniqueItemsOf rest t

/-- The `difference_update` step of `AttackSurface._filter_and_register_node`:
remove from the incoming node every item already present in a same-type node
of the surface. -/
def filterNode (s : List Node) (n : Node) : Node :=
  { n with items := n.items \ uniqueItemsOf s n.type }

/-- `AttackSurface._filter_and_register_node`: apply the `difference_update`
step; if items remain, compute the node's directions once and register the
updater callback. -/
def filterAndRegisterNode (pv : Provider) (s : List Node) (n : Node) : Node :=
  if 0 < (filterNode s n).items.card then
    Node.setSearchDirectionUpdater (updateSearchDirections pv (filterNode s n))
  else
    filterNode s n

/-- `AttackSurface.append`: filter and register, then store the node only
when it still has items. -/
def appendOp (pv : Provider) (s : List Node) (n : Node) : List Node :=
  if 0 < (filterAndRegisterNode pv s n).items.card then
    s ++ [filterAndRegisterNode pv s n]
  else s

/-- `AttackSurface.insert`: filter and register, then insert at the given
index only when the node still has items.  Python's `list.insert` clamps an
out-of-range index, which `take`/`drop` reproduce. -/
def insertOp (pv : Provider) (s : List Node) (i : Nat) (n : Node) : List Node :=
  if 0 < (filterAndRegisterNode pv s n).items.card then
    s.take i ++ filterAndRegisterNode pv s n :: s.drop i
  else s

/-- `AttackSurface.extend`: append each node in turn. -/
def extendOp (pv : Provider) (s : List Node) (ns : List Node) : List Node :=
  ns.foldl (appendOp pv) s

/-- `AttackSurface.__setitem__` (single-index case): filter and register the
value, then store it unconditionally at the index — there is no emptiness
check before `super().__setitem__`. -/
def setItemOp (pv : Provider) (s : List Node) (i : Nat) (n : Node) : List Node :=
  s.set i (filterAndRegisterNode pv s n)

/-- The result-processing loop of `AttackSurface.search` (lines 179–183):
each node returned by the provider is filtered against the current surface
and, when non-empty, appended both to the surface and to the returned
result list. -/
def searchLoop (pv : Provider) : List Node → List Node → List Node → List Node × List Node
  | s, acc, [] => (s, acc)
  | s, acc, n :: rest =>
      if 0 < (filterAndRegisterNode pv s n).items.card then
        searchLoop pv (s ++ [filterAndRegisterNode pv s n])
          (acc ++ [filterAndRegisterNode pv s n]) rest
      else searchLoop pv s acc rest

/-- The direction-resolution step of `AttackSurface.search` (lines 175–176):
a bare integer identifier is looked up in the node's current (possibly
freshly refreshed) `searchDirections` with
`next(d for d in node.searchDirections if d.id == direction)`; `next` on an
exhausted generator raises `StopIteration`. -/
def resolveDirection (pv : Provider) (n : Node) (d : Int) :
    Except PyErr (SearchDirection × Node × Nat) :=
  match Node.searchDirectionsRead pv n with
  | .error e => .error e
  | .ok (dirs, n2, k) =>
      match dirs.find? (fun sd => decide (sd.id = d)) with
      | some sd => .ok (sd, n2, k)
      | none => .error .stopIteration

/-- The mutating surface operations that claims about the surface's
invariants quantify over; `search ns` models a `search` call whose remote
provider returned the node list `ns`. -/
inductive Op
  | append (n : Node)
  | insert (i : Nat) (n : Node)
  | extend (ns : List Node)
  | search (ns : List Node)

/-- Apply one surface operation to the surface state. -/
def applyOp (pv : Provider) (s : List Node) : Op → List Node
  | .append n => appendOp pv s n
  | .insert i n => insertOp pv s i n
  | .extend ns => extendOp pv s ns
  | .search ns => (searchLoop pv s [] ns).1

/-- Run a sequence of surface operations starting from the empty surface
(`AttackSurface.__init__` creates an empty list). -/
def runOps (pv : Provider) (ops : List Op) : List Node :=
  ops.foldl (applyOp pv) []

/-- Per-type cross-node uniqueness: any two positions of the surface holding
nodes of the same type hold disjoint item sets. -/
def TypedDisjoint (s : List Node) : Prop :=
  s.Pairwise (fun a b => a.type = b.type → Disjoint a.items b.items)

/-- The keys of the dict built by `AttackSurface._unique_items`, in Python
dict insertion order: each type present, at its first occurrence. -/
def dictKeys (s : List Node) : List NodeType :=
  s.foldl (fun ks n => if n.type ∈ ks then ks else ks ++ [n.type]) []

/-- A valid linearisation of Python sets: `order f` enumerates exactly the
elements of `f`, each once, in some order.  CPython's `list(s)` for a
`set[str]` is such an enumeration (its order depends on string hashes and
the per-process hash seed, and is otherwise unspecified). -/
def IsSetEnum (order : Finset String → List String) : Prop :=
  ∀ f : Finset String, (order f).Nodup ∧ ∀ x, x ∈ order f ↔ x ∈ f

/-- `AttackSurface.unique_items_to_dict`: for each type present (in dict
insertion order), the pair of the type's string value and `list(items)` —
the enumeration `order` of the union of that type's items.  No sorting is
applied in the source. -/
def unique_items_to_dict (order : Finset String → List String) (s : List Node) :
    List (String × List String) :=
  (dictKeys s).map (fun t => (t.value, order (uniqueItemsOf s t)))

/-- A set enumeration in ascending lexicographic order. -/
def ascOrder (f : Finset String) : List String :=
  f.sort (fun a b => a ≤ b)

/-- A valid set enumeration that happens to list the set `{"a", "b"}` in
descending order — a possible CPython set iteration order, used to exhibit
that `unique_items_to_dict` applies no sorting. -/
def revOrder (f : Finset String) : List String :=
  if f = {"a", "b"} then ["b", "a"] else ascOrder f

/-! ### The retry loop of `ApiClient._execute_api_call` (`client.py`) -/

/-- `ApiClient.MAX_RETIRES` (sic). -/
def MAX_RETIRES : Nat := 100

/-- `ApiClient.DEFAULT_RETRY_WAIT_TIME`, seconds. -/
def DEFAULT_RETRY_WAIT_TIME : Nat := 10

/-- The outcome of one HTTP POST attempt, as the retry loop distinguishes
them: success, an HTTP error status (with the parsed `Retry-After` header
value when present), or a transport-level failure (timeout, connection
error, chunked-encoding error). -/
inductive ApiResp
  | ok
  | httpErr (status : Nat) (retryAfter : Option Nat)
  | transportErr
deriving DecidableEq

/-- How an `_execute_api_call` run ends: the request succeeded, a
non-retriable HTTP status was raised, or all `MAX_RETIRES` attempts were
consumed. -/
inductive CallOutcome
  | success
  | httpFailure (status : Nat)
  | exhausted
deriving DecidableEq

/-- The 429-specific wait (`client.py` lines 82–85): the parsed
`Retry-After` value, reduced by `DEFAULT_RETRY_WAIT_TIME` only when it
exceeds it. -/
def rateLimitSleep (ra : Nat) : Nat :=
  if DEFAULT_RETRY_WAIT_TIME < ra then ra - DEFAULT_RETRY_WAIT_TIME else ra

/-- The retry loop of `ApiClient._execute_api_call`, driven by a script of
attempt outcomes (an empty script behaves as further transport failures).
Returns the list of sleep durations performed, in order, and how the call
ended.  On 429 with `Retry-After` the loop sleeps `rateLimitSleep`; every
retried attempt additionally sleeps `DEFAULT_RETRY_WAIT_TIME` at the bottom
of the loop; any other HTTP status — including 429 without `Retry-After` —
raises immediately; exhausting the budget raises. -/
def executeApiCall : Nat → List ApiResp → List Nat × CallOutcome
  | 0, _ => ([], .exhausted)
  | fuel + 1, script =>
      match script.headD .transportErr with
      | .ok => ([], .success)
      | .httpErr 429 (some ra) =>
          let rest := executeApiCall fuel script.tail
          (rateLimitSleep ra :: DEFAULT_RETRY_WAIT_TIME :: rest.1, rest.2)
      | .httpErr 504 _ =>
          let rest := executeApiCall fuel script.tail
          (DEFAULT_RETRY_WAIT_TIME :: rest.1, rest.2)
      | .httpErr c _ => ([], .httpFailure c)
      | .transportErr =>
          let rest := executeApiCall fuel script.tail
          (DEFAULT_RETRY_WAIT_TIME :: rest.1, rest.2)

/-! ### Concrete inputs used by counterexamples and witnesses -/

/-- A provider returning no directions; any concrete provider works for the
concrete evaluations. -/
def pv0 : Provider := fun _ _ => ([], "")

/-- The Scenario A seed: `Node(label="root", type=DOMAIN, items=["example.com"])`. -/
def rootNode : Node := Node.mkNode "root" .domain {"example.com"}

/-- The Scenario A second merge:
`Node(type=DOMAIN, items=["example.com", "example.org"])`. -/
def mergeNode : Node := Node.mkNode "more" .domain {"example.com", "example.org"}

/-- A fresh node whose cache attributes were never assigned and with no
updater registered. -/
def freshNode : Node := Node.mkNode "root" .domain {"example.com"}

/-- A node with directions set but whose membership no longer matches the
cache snapshot, and with no updater registered. -/
def staleNode : Node :=
  ⟨"n", .domain, {"a"}, some ([⟨1, "domain", 3, ["x"]⟩], "cid", ∅), false⟩

/-- A node with a valid, non-empty directions cache and a registered
updater. -/
def cachedNode : Node :=
  ⟨"n", .domain, {"a"}, some ([⟨1, "domain", 3, ["x"]⟩], "cid", {"a"}), true⟩

/-- A one-node surface used as the `__setitem__` failing input. -/
def seedNode : Node := ⟨"seed", .domain, {"a"}, none, false⟩

/-- A node whose single item duplicates the seed node's item. -/
def dupNode : Node := Node.mkNode "dup" .domain {"a"}

/-! ### Helper lemmas -/

/-- Membership in the per-type union of items. -/
theorem mem_uniqueItemsOf {s : List Node} {t : NodeType} {x : String} :
    x ∈ uniqueItemsOf s t ↔ ∃ n ∈ s, n.type = t ∧ x ∈ n.items := by
  induction s with
  | nil => simp [uniqueItemsOf]
  | cons a rest ih =>
      simp only [uniqueItemsOf, Finset.mem_union, ih, List.mem_cons]
      by_cases h : a.type = t
      · rw [if_pos h]
        constructor
        · rintro (hx | ⟨n, hn, hnt, hx⟩)
          · exact ⟨a, Or.inl rfl, h, hx⟩
          · exact ⟨n, Or.inr hn, hnt, hx⟩
        · rintro ⟨n, hn | hn, hnt, hx⟩
          · subst hn; exact Or.inl hx
          · exact Or.inr ⟨n, hn, hnt, hx⟩
      · rw [if_neg h]
        simp only [Finset.not_mem_empty, false_or]
        constructor
        · rintro ⟨n, hn, hnt, hx⟩
          exact ⟨n, Or.inr hn, hnt, hx⟩
        · rintro ⟨n, hn | hn, hnt, hx⟩
          · subst hn; exact absurd hnt h
          · exact ⟨n, hn, hnt, hx⟩

/-- Every member node's items are contained in its type's union. -/
theorem subset_uniqueItemsOf {s : List Node} {m : Node} (hm : m ∈ s) :
    m.items ⊆ uniqueItemsOf s m.type := by
  intro x hx
  exact mem_uniqueItemsOf.mpr ⟨m, hm, rfl, hx⟩

/-- `_filter_and_register_node` only removes already-present items. -/
theorem filterAndRegisterNode_items (pv : Provider) (s : List Node) (n : Node) :
    (filterAndRegisterNode pv s n).items = n.items \ uniqueItemsOf s n.type := by
  unfold filterAndRegisterNode
  split <;> rfl

/-- `_filter_and_register_node` preserves the node's type. -/
theorem filterAndRegisterNode_type (pv : Provider) (s : List Node) (n : Node) :
    (filterAndRegisterNode pv s n).type = n.type := by
  unfold filterAndRegisterNode
  split <;> rfl

/-- `_filter_and_register_node` preserves the node's label. -/
theorem filterAndRegisterNode_label (pv : Provider) (s : List Node) (n : Node) :
    (filterAndRegisterNode pv s n).label = n.label := by
  unfold filterAndRegisterNode
  split <;> rfl

/-- After filtering, the node is disjoint from every same-type member of the
surface it was filtered against. -/
theorem filtered_disjoint {pv : Provider} {s : List Node} {n : Node} {m : Node}
    (hm : m ∈ s) (ht : m.type = n.type) :
    Disjoint m.items (filterAndRegisterNode pv s n).items := by
  rw [filterAndRegisterNode_items, Finset.disjoint_right]
  intro x hx
  rw [Finset.mem_sdiff] at hx
  intro hxm
  exact hx.2 (ht ▸ subset_uniqueItemsOf hm hxm)

/-- Appending a node disjoint from all same-type members preserves per-type
disjointness. -/
theorem typedDisjoint_append_filtered {pv : Provider} {s : List Node} (n : Node)
    (hs : TypedDisjoint s) :
    TypedDisjoint (s ++ [filterAndRegisterNode pv s n]) := by
  rw [TypedDisjoint, List.pairwise_append]
  refine ⟨hs, List.pairwise_singleton _ _, ?_⟩
  intro a ha b hb
  rcases List.mem_singleton.mp hb with rfl
  intro ht
  exact filtered_disjoint ha (by rw [← filterAndRegisterNode_type pv s n]; exact ht)

/-- Inserting a node disjoint from all same-type members preserves per-type
disjointness. -/
theorem typedDisjoint_insert_filtered {pv : Provider} {s : List Node} (i : Nat) (n : Node)
    (hs : TypedDisjoint s) :
    TypedDisjoint (s.take i ++ filterAndRegisterNode pv s n :: s.drop i) := by
  have hsplit : List.Pairwise (fun a b => a.type = b.type → Disjoint a.items b.items)
      (s.take i ++ s.drop i) := by
    rw [List.take_append_drop]; exact hs
  rw [List.pairwise_append] at hsplit
  obtain ⟨h1, h2, h12⟩ := hsplit
  rw [TypedDisjoint, List.pairwise_append]
  refine ⟨h1, ?_, ?_⟩
  · rw [List.pairwise_cons]
    refine ⟨?_, h2⟩
    intro b hb ht
    have hbs : b ∈ s := List.drop_subset i s hb
    have ht2 : b.type = n.type := by
      rw [← filterAndRegisterNode_type pv s n]; exact ht.symm
    exact (filtered_disjoint hbs ht2).symm
  · intro a ha b hb
    rcases List.mem_cons.mp hb with rfl | hb2
    · intro ht
      exact filtered_disjoint (List.take_subset i s ha)
        (by rw [← filterAndRegisterNode_type pv s n]; exact ht)
    · exact h12 a ha b hb2

/-- `append` preserves per-type disjointness. -/
theorem typedDisjoint_appendOp {pv : Provider} {s : List Node} {n : Node}
    (hs : TypedDisjoint s) : TypedDisjoint (appendOp pv s n) := by
  unfold appendOp
  split
  · exact typedDisjoint_append_filtered n hs
  · exact hs

/-- `insert` preserves per-type disjointness. -/
theorem typedDisjoint_insertOp {pv : Provider} {s : List Node} {i : Nat} {n : Node}
    (hs : TypedDisjoint s) : TypedDisjoint (insertOp pv s i n) := by
  unfold insertOp
  split
  · exact typedDisjoint_insert_filtered i n hs
  · exact hs

/-- `extend` preserves per-type disjointness. -/
theorem typedDisjoint_extendOp {pv : Provider} :
    ∀ (ns : List Node) (s : List Node), TypedDisjoint s → TypedDisjoint (extendOp pv s ns) := by
  intro ns
  induction ns with
  | nil => exact fun s hs => hs
  | cons a rest ih =>
      intro s hs
      exact ih (appendOp pv s a) (typedDisjoint_appendOp hs)

/-- The `search` result loop preserves per-type disjointness. -/
theorem typedDisjoint_searchLoop {pv : Provider} :
    ∀ (ns s acc : List Node), TypedDisjoint s → TypedDisjoint (searchLoop pv s acc ns).1 := by
  intro ns
  induction ns with
  | nil => exact fun s acc hs => hs
  | cons a rest ih =>
      intro s acc hs
      unfold searchLoop
      split
      · exact ih _ _ (typedDisjoint_append_filtered a hs)
      · exact ih _ _ hs

/-- Every surface operation preserves per-type disjointness. -/
theorem typedDisjoint_applyOp {pv : Provider} {s : List Node} {op : Op}
    (hs : TypedDisjoint s) : TypedDisjoint (applyOp pv s op) := by
  cases op with
  | append n => exact typedDisjoint_appendOp hs
  | insert i n => exact typedDisjoint_insertOp hs
  | extend ns => exact typedDisjoint_extendOp ns s hs
  | search ns => exact typedDisjoint_searchLoop ns s [] hs

/-- Folding surface operations preserves per-type disjointness. -/
theorem typedDisjoint_foldl {pv : Provider} :
    ∀ (ops : List Op) (s : List Node), TypedDisjoint s →
      TypedDisjoint (ops.foldl (applyOp pv) s) := by
  intro ops
  induction ops with
  | nil => exact fun s hs => hs
  | cons op rest ih =>
      intro s hs
      exact ih (applyOp pv s op) (typedDisjoint_applyOp hs)

/-! ### Claim theorems -/

/-- C1: Cross-type uniqueness invariant.  Starting from an empty
`AttackSurface`, after any sequence of `append`/`insert`/`extend`/`search`
operations (and hence at every intermediate point, which is the run of a
prefix of the sequence), for every `NodeType` the item sets of the
surface's nodes of that type are pairwise disjoint: any two positions of
the surface holding same-typed nodes hold disjoint item sets. -/
theorem cross_type_uniqueness (pv : Provider) (ops : List Op) :
    TypedDisjoint (runOps pv ops) :=
  typedDisjoint_foldl ops [] List.Pairwise.nil

/-- C10: Merge mutates the caller's node in place.
`_filter_and_register_node` calls `difference_update` on the caller's node
object; its post-state (returned by `filterAndRegisterNode` in this
embedding) holds exactly the items of `n` not already present in a
same-type node of the surface, with label and type unchanged, and `append`
leaves the surface unchanged (discards the node) exactly when that
post-state is the empty set. -/
theorem filter_mutates_caller_node (pv : Provider) (s : List Node) (n : Node) :
    (∀ x, x ∈ (filterAndRegisterNode pv s n).items ↔
        x ∈ n.items ∧ x ∉ uniqueItemsOf s n.type) ∧
    (filterAndRegisterNode pv s n).label = n.label ∧
    (filterAndRegisterNode pv s n).type = n.type ∧
    (appendOp pv s n = s ↔ (filterAndRegisterNode pv s n).items = ∅) := by
  refine ⟨?_, filterAndRegisterNode_label pv s n, filterAndRegisterNode_type pv s n, ?_⟩
  · intro x
    rw [filterAndRegisterNode_items, Finset.mem_sdiff]
  · unfold appendOp
    split
    · rename_i hcard
      constructor
      · intro habs
        have : (s ++ [filterAndRegisterNode pv s n]).length = s.length := by rw [habs]
        simp at this
      · intro hempty
        rw [hempty] at hcard
        simp at hcard
    · rename_i hcard
      constructor
      · intro _
        have := Nat.eq_zero_of_not_pos hcard
        exact Finset.card_eq_zero.mp this
      · intro _
        rfl

/-- C5: Idempotent re-merge.  If every item of `n` is already present in
same-type nodes of the surface, then `append` leaves the surface unchanged
(so the per-type item content is unchanged), and a `search` whose provider
returned exactly `[n]` leaves the surface unchanged and returns the empty
result list. -/
theorem idempotent_remerge (pv : Provider) (s : List Node) (n : Node)
    (h : n.items ⊆ uniqueItemsOf s n.type) :
    appendOp pv s n = s ∧ searchLoop pv s [] [n] = (s, []) := by
  have hitems : (filterAndRegisterNode pv s n).items = ∅ := by
    rw [filterAndRegisterNode_items]
    exact Finset.sdiff_eq_empty_iff_subset.mpr h
  have hcard : ¬ 0 < (filterAndRegisterNode pv s n).items.card := by
    rw [hitems]
    simp
  constructor
  · unfold appendOp
    rw [if_neg hcard]
  · unfold searchLoop
    rw [if_neg hcard]
    rfl

/-- C5 witness: a surface owning a DOMAIN node with item "a" absorbs a new
DOMAIN node with item "a" without change, and the search result is empty. -/
theorem idempotent_remerge_witness :
    appendOp pv0 [seedNode] dupNode = [seedNode] ∧
    searchLoop pv0 [seedNode] [] [dupNode] = ([seedNode], []) :=
  idempotent_remerge pv0 [seedNode] dupNode (by decide)

/-- C3 (code bug): the no-empty-node invariant is violated by
`__setitem__`.  On the surface `[seedNode]` (one DOMAIN node with item
"a"), assigning index 0 a DOMAIN node with items `["a"]` filters the value
down to the empty set and then stores it unconditionally — the surface
retains a node with zero items, because `__setitem__`, unlike `append`,
`insert` and `search`, performs no `len(node) > 0` check before storing. -/
theorem setitem_retains_empty_node :
    setItemOp pv0 [seedNode] 0 dupNode = [⟨"dup", .domain, ∅, none, false⟩] ∧
    (setItemOp pv0 [seedNode] 0 dupNode).map Node.items = [∅] := by
  constructor <;> decide

/-- C7 (code bug): with no updater registered, reading `searchDirections`
or `count_id` on a node whose cache attributes were never assigned fails
with `AttributeError` (the `not self._search_directions` test itself raises
before the `ValueError` site is reached), not with the
`StaleStateError`/`ValueError` the spec requires; only the stale case
(cache set, membership since changed) fails with the `ValueError`. -/
theorem stale_read_error_kinds :
    Node.searchDirectionsRead pv0 freshNode = .error .attributeError ∧
    Node.countIdRead pv0 freshNode = .error .attributeError ∧
    Node.searchDirectionsRead pv0 staleNode
      = .error (.valueError "Search directions are not set or are not relevant.") ∧
    Node.countIdRead pv0 staleNode
      = .error (.valueError "Search directions are not set or are not relevant.") :=
  ⟨rfl, rfl, rfl, rfl⟩

/-- C8: Unknown direction failure.  When a bare integer identifier matches
none of the directions the node's `searchDirections` read yields (the read
may itself have refreshed them), the direction-resolution step of
`AttackSurface.search` fails: `next()` over the exhausted generator raises
(`StopIteration` — the failure the spec names `UnknownDirectionError`). -/
theorem unknown_direction_fails (pv : Provider) (n : Node) (d : Int)
    (dirs : List SearchDirection) (n2 : Node) (k : Nat)
    (hread : Node.searchDirectionsRead pv n = .ok (dirs, n2, k))
    (hmiss : ∀ sd ∈ dirs, sd.id ≠ d) :
    resolveDirection pv n d = .error .stopIteration := by
  have hfind : dirs.find? (fun sd => decide (sd.id = d)) = none := by
    rw [List.find?_eq_none]
    intro sd hsd
    simp only [decide_eq_true_eq]
    exact hmiss sd hsd
  unfold resolveDirection
  simp only [hread, hfind]

/-- C8 witness: a node whose only direction has id 1 rejects the bare
identifier 2. -/
theorem unknown_direction_fails_witness :
    resolveDirection pv0 cachedNode 2 = .error .stopIteration :=
  unknown_direction_fails pv0 cachedNode 2 [⟨1, "domain", 3, ["x"]⟩] cachedNode 0 rfl
    (by decide)

/-- C6 counterexample: on a 429 carrying `Retry-After: 5` followed by a
success, the retry loop sleeps 5 seconds for the rate limit (plus the fixed
10-second per-retry sleep), not the `max(5 − 10, 0) = 0` seconds the claim
states for a `Retry-After` below the baseline. -/
theorem rate_limit_sleep_not_clamped :
    executeApiCall MAX_RETIRES [ApiResp.httpErr 429 (some 5), ApiResp.ok]
      = ([5, 10], .success) ∧
    ([5, 10] : List Nat) ≠ [max (5 - 10) 0, DEFAULT_RETRY_WAIT_TIME] := by
  constructor <;> decide

/-- C6 amended: on HTTP 429 with `Retry-After` value `r`, the loop sleeps
`r − baseline` when `r` exceeds the baseline (`DEFAULT_RETRY_WAIT_TIME`,
10 s) — which then coincides with `max(r − baseline, 0)` — but sleeps the
full `r` seconds (not 0) when `r ≤ baseline`; the uniform fixed per-retry
sleep follows in both cases. -/
theorem rate_limit_sleep_formula (r : Nat) (fuel : Nat) (rest : List ApiResp) :
    executeApiCall (fuel + 1) (ApiResp.httpErr 429 (some r) :: rest)
      = (rateLimitSleep r :: DEFAULT_RETRY_WAIT_TIME :: (executeApiCall fuel rest).1,
         (executeApiCall fuel rest).2) ∧
    (DEFAULT_RETRY_WAIT_TIME < r →
      rateLimitSleep r = max (r - DEFAULT_RETRY_WAIT_TIME) 0) ∧
    (r ≤ DEFAULT_RETRY_WAIT_TIME → rateLimitSleep r = r) := by
  refine ⟨rfl, ?_, ?_⟩
  · intro h
    rw [rateLimitSleep, if_pos h]
    omega
  · intro h
    rw [rateLimitSleep, if_neg (by omega)]

/-- C6 amended witness: `Retry-After: 25` sleeps 15 s (matching the max
formula above the baseline), and `Retry-After: 5` sleeps the full 5 s. -/
theorem rate_limit_sleep_formula_witness :
    executeApiCall 100 [ApiResp.httpErr 429 (some 25), ApiResp.ok]
      = ([15, 10], .success) ∧
    rateLimitSleep 25 = max (25 - 10) 0 ∧
    rateLimitSleep 5 = 5 := by
  refine ⟨?_, ?_, ?_⟩
  · rw [(rate_limit_sleep_formula 25 99 [ApiResp.ok]).1]
    decide
  · exact (rate_limit_sleep_formula 25 99 []).2.1 (by decide)
  · exact (rate_limit_sleep_formula 5 99 []).2.2 (by decide)

/-- C2 counterexample: seeding with a DOMAIN node holding "example.com" and
then appending a DOMAIN node holding "example.com" and "example.org" leaves
TWO domain nodes in the surface, and no node's membership is
`{"example.com", "example.org"}` — the incoming node is stripped of the
duplicate and appended as a second node, not merged into the first. -/
theorem merge_scenario_two_nodes :
    ((appendOp pv0 (appendOp pv0 [] rootNode) mergeNode).filter
        (fun n => decide (n.type = NodeType.domain))).length = 2 ∧
    (appendOp pv0 (appendOp pv0 [] rootNode) mergeNode).all
        (fun n => decide (n.items ≠ ({"example.com", "example.org"} : Finset String)))
      = true := by
  constructor <;> decide

/-- C2 amended: for any provider, the Scenario A sequence ends with exactly
two DOMAIN nodes — the seeded node still holding exactly
`{"example.com"}` and a second node holding exactly `{"example.org"}` (the
duplicate item is dropped from the incoming node) — and the surface-wide
DOMAIN membership is exactly `{"example.com", "example.org"}`. -/
theorem merge_scenario_amended (pv : Provider) :
    (appendOp pv (appendOp pv [] rootNode) mergeNode).map Node.items
      = [{"example.com"}, {"example.org"}] ∧
    (appendOp pv (appendOp pv [] rootNode) mergeNode).map Node.type
      = [.domain, .domain] ∧
    uniqueItemsOf (appendOp pv (appendOp pv [] rootNode) mergeNode) .domain
      = {"example.com", "example.org"} := by
  refine ⟨rfl, rfl, rfl⟩

/-- `ascOrder` is a valid set enumeration. -/
theorem isSetEnum_ascOrder : IsSetEnum ascOrder := by
  intro f
  refine ⟨Finset.sort_nodup _ f, ?_⟩
  intro x
  exact Finset.mem_sort _

/-- `revOrder` is a valid set enumeration. -/
theorem isSetEnum_revOrder : IsSetEnum revOrder := by
  intro f
  unfold revOrder
  by_cases h : f = {"a", "b"}
  · rw [if_pos h, h]
    refine ⟨by decide, ?_⟩
    simp
    exact fun x => or_comm
  · rw [if_neg h]
    exact isSetEnum_ascOrder f

/-- Membership in the dict-key fold of `_unique_items`, generalised over the
accumulator. -/
theorem mem_dictKeys_aux :
    ∀ (s : List Node) (acc : List NodeType) (t : NodeType),
      (t ∈ s.foldl (fun ks n => if n.type ∈ ks then ks else ks ++ [n.type]) acc ↔
        t ∈ acc ∨ ∃ n ∈ s, n.type = t) := by
  intro s
  induction s with
  | nil => intro acc t; simp
  | cons a rest ih =>
      intro acc t
      simp only [List.foldl_cons]
      rw [ih]
      by_cases h : a.type ∈ acc
      · rw [if_pos h]
        simp only [List.mem_cons]
        constructor
        · rintro (hacc | ⟨n, hn, hnt⟩)
          · exact Or.inl hacc
          · exact Or.inr ⟨n, Or.inr hn, hnt⟩
        · rintro (hacc | ⟨n, hn | hn, hnt⟩)
          · exact Or.inl hacc
          · subst hn; exact Or.inl (hnt ▸ h)
          · exact Or.inr ⟨n, hn, hnt⟩
      · rw [if_neg h]
        simp only [List.mem_append, List.mem_cons, List.not_mem_nil, or_false]
        constructor
        · rintro ((hacc | hat) | ⟨n, hn, hnt⟩)
          · exact Or.inl hacc
          · exact Or.inr ⟨a, Or.inl rfl, hat.symm⟩
          · exact Or.inr ⟨n, Or.inr hn, hnt⟩
        · rintro (hacc | ⟨n, hn | hn, hnt⟩)
          · exact Or.inl (Or.inl hacc)
          · subst hn; exact Or.inl (Or.inr hnt.symm)
          · exact Or.inr ⟨n, hn, hnt⟩

/-- The dict keys of `_unique_items` are exactly the types present in the
surface. -/
theorem mem_dictKeys {s : List Node} {t : NodeType} :
    t ∈ dictKeys s ↔ ∃ n ∈ s, n.type = t := by
  rw [dictKeys, mem_dictKeys_aux s [] t]
  simp

/-- C4: Cache coherence on read.  For a node with the refresh callback
registered (and hence, as `_filter_and_register_node` guarantees by warming
the cache immediately before registration, with its cache attributes
assigned), reading `searchDirections` succeeds and either returns the
cached directions — in which case the snapshotted membership equals the
current membership — or invokes the refresh callback exactly once before
returning; in either case the returned node state's snapshot equals the
current membership, so stale directions are never returned. -/
theorem cache_coherent_read (pv : Provider) (n : Node)
    (hu : n.updaterSet = true) (hc : n.cache.isSome = true) :
    ∃ dirs n2 k, Node.searchDirectionsRead pv n = .ok (dirs, n2, k) ∧
      ((k = 0 ∧ n2 = n ∧ n.cacheSnapshot = some n.items) ∨
        (k = 1 ∧ n2 = updateSearchDirections pv n)) ∧
      n2.items = n.items ∧
      n2.cacheSnapshot = some n.items := by
  obtain ⟨c, hcache⟩ := Option.isSome_iff_exists.mp hc
  obtain ⟨dirs, cid, snap⟩ := c
  by_cases hrel : dirs = [] ∨ snap ≠ n.items
  · have hread : Node.searchDirectionsRead pv n
        = .ok ((pv n.type n.items).1, updateSearchDirections pv n, 1) := by
      unfold Node.searchDirectionsRead Node.isSearchDirectionsRelevant
      simp only [hcache, if_pos hrel, hu, if_true, updateSearchDirections,
        Node.setSearchDirections]
    refine ⟨(pv n.type n.items).1, updateSearchDirections pv n, 1, hread, Or.inr ⟨rfl, rfl⟩,
      rfl, rfl⟩
  · have hsnap : snap = n.items := by
      push_neg at hrel
      exact hrel.2
    have hread : Node.searchDirectionsRead pv n = .ok (dirs, n, 0) := by
      unfold Node.searchDirectionsRead Node.isSearchDirectionsRelevant
      simp only [hcache, if_neg hrel]
    refine ⟨dirs, n, 0, hread, Or.inl ⟨rfl, rfl, ?_⟩, rfl, ?_⟩
    · rw [Node.cacheSnapshot, hcache, hsnap]
      rfl
    · rw [Node.cacheSnapshot, hcache, hsnap]
      rfl

/-- C4 witness: a node with a valid cache and registered updater returns
the cached directions with no refresh. -/
theorem cache_coherent_read_witness :
    cachedNode.updaterSet = true ∧ cachedNode.cache.isSome = true ∧
    ∃ dirs n2 k, Node.searchDirectionsRead pv0 cachedNode = .ok (dirs, n2, k) ∧
      ((k = 0 ∧ n2 = cachedNode ∧ cachedNode.cacheSnapshot = some cachedNode.items) ∨
        (k = 1 ∧ n2 = updateSearchDirections pv0 cachedNode)) ∧
      n2.items = cachedNode.items ∧
      n2.cacheSnapshot = some cachedNode.items :=
  ⟨rfl, rfl, cache_coherent_read pv0 cachedNode rfl rfl⟩

/-- C9 counterexample: `unique_items_to_dict` applies no sorting.  Under a
valid set enumeration (one possible CPython set iteration order) that lists
`{"a", "b"}` as `["b", "a"]`, the snapshot of a surface holding one DOMAIN
node with items `{"a", "b"}` maps "domain" to the unsorted list
`["b", "a"]`. -/
theorem snapshot_not_sorted :
    IsSetEnum revOrder ∧
    unique_items_to_dict revOrder [Node.mkNode "n" .domain {"a", "b"}]
      = [("domain", ["b", "a"])] ∧
    ¬ List.Sorted (fun x y : String => x ≤ y) ["b", "a"] := by
  refine ⟨isSetEnum_revOrder, by decide, ?_⟩
  intro hsort
  have h := List.rel_of_sorted_cons hsort "a" (by simp)
  have hlt : ("a" : String) < "b" := String.lt_iff_toList_lt.mpr (by decide)
  exact absurd h (not_le.mpr hlt)

/-- C9 amended: for every valid set enumeration, `unique_items_to_dict`
maps exactly the NodeTypes present in the surface (keyed by their string
value) to a deduplicated list containing exactly the items of that type in
the surface — in the enumeration's order, which the code does not sort. -/
theorem snapshot_content (order : Finset String → List String)
    (ho : IsSetEnum order) (s : List Node) :
    (∀ t : NodeType, t ∈ dictKeys s ↔ ∃ n ∈ s, n.type = t) ∧
    ∀ t ∈ dictKeys s,
      (t.value, order (uniqueItemsOf s t)) ∈ unique_items_to_dict order s ∧
      (order (uniqueItemsOf s t)).Nodup ∧
      ∀ x, x ∈ order (uniqueItemsOf s t) ↔ ∃ n ∈ s, n.type = t ∧ x ∈ n.items := by
  refine ⟨fun t => mem_dictKeys, ?_⟩
  intro t ht
  refine ⟨List.mem_map.mpr ⟨t, ht, rfl⟩, (ho _).1, ?_⟩
  intro x
  rw [(ho _).2 x, mem_uniqueItemsOf]

/-- C9 amended witness: the snapshot of the one-node surface `[seedNode]`
under the ascending enumeration. -/
theorem snapshot_content_witness :
    (∀ t : NodeType, t ∈ dictKeys [seedNode] ↔ ∃ n ∈ [seedNode], n.type = t) ∧
    ∀ t ∈ dictKeys [seedNode],
      (t.value, ascOrder (uniqueItemsOf [seedNode] t))
          ∈ unique_items_to_dict ascOrder [seedNode] ∧
      (ascOrder (uniqueItemsOf [seedNode] t)).Nodup ∧
      ∀ x, x ∈ ascOrder (uniqueItemsOf [seedNode] t) ↔
        ∃ n ∈ [seedNode], n.type = t ∧ x ∈ n.items :=
  snapshot_content ascOrder isSetEnum_ascOrder [seedNode]
